import Mathlib

/-!
Shallow embedding of the week-time timer store
(`src/store/TimerContext.tsx`): the Timer data model, the tick engine,
the catch-up reconciler, and the aggregate mutators
(addTimer / updateTimer / deleteTimer / toggleTimer / deductTime / resetWeek).

JavaScript numbers are modelled as `Int` (all values occurring in the
program are integers).  The optional field `lastTickAt?: number` is
`Option Int`.  The guard `if (t.isRunning && t.lastTickAt)` relies on JS
truthiness, under which both `undefined` and `0` are falsy; this is
modelled as `t.isRunning && t.lastTickAt.getD 0 != 0`.
`Math.floor(deltaMs / 1000)` is evaluated only under a positivity guard
(`deltaMs > 0` resp. `deltaMs >= 1000`), where it agrees with natural
division `deltaMs.toNat / 1000`.
-/

namespace WeekTime

/-- Source: `type TimerType = 'goal' | 'stopwatch'` (src/types.ts). -/
inductive TimerType where
  | goal
  | stopwatch
deriving Repr, DecidableEq

/-- Source: `type TimerSize = 'small' | 'medium' | 'large'` (src/types.ts). -/
inductive TimerSize where
  | small
  | medium
  | large
deriving Repr, DecidableEq

/-- Source: `interface Timer` (src/types.ts). -/
structure Timer where
  id : String
  type : TimerType
  title : String
  totalSeconds : Int
  remainingSeconds : Int
  elapsedSeconds : Int
  isRunning : Bool
  color : String
  size : TimerSize
  lastTickAt : Option Int
deriving Repr, DecidableEq

/-- One entry of `WeekHistory.timersSnapshot` (src/types.ts). -/
structure SnapshotItem where
  title : String
  type : TimerType
  totalSeconds : Int
  completedSeconds : Int
  color : String
deriving Repr, DecidableEq

/-- Source: `interface WeekHistory` (src/types.ts). -/
structure WeekHistory where
  id : String
  weekStart : String
  timersSnapshot : List SnapshotItem
deriving Repr, DecidableEq

/-- Embedding of `Math.floor(deltaMs / 1000)`; only used where the code has already
checked `deltaMs > 0` (or `deltaMs >= 1000`), so natural division after
`toNat` coincides with JS `Math.floor`. -/
def secondsPassedOf (deltaMs : Int) : Int :=
  ((deltaMs.toNat / 1000 : Nat) : Int)

/-- Per-timer body of the tick interval callback
(TimerContext.tsx lines 196-227).  `now = Date.now()` at the tick. -/
def tickTimer (now : Int) (t : Timer) : Timer :=
  match t.lastTickAt with
  | none => t
  | some l =>
    if t.isRunning && l != 0 then
      let deltaMs := now - l
      if deltaMs ≥ 1000 then
        let secondsPassed := secondsPassedOf deltaMs
        match t.type with
        | TimerType.stopwatch =>
          { t with elapsedSeconds := t.elapsedSeconds + secondsPassed,
                   lastTickAt := some (l + secondsPassed * 1000) }
        | TimerType.goal =>
          let newRemaining := t.remainingSeconds - secondsPassed
          if newRemaining ≤ 0 then
            { t with remainingSeconds := 0, isRunning := false, lastTickAt := none }
          else
            { t with remainingSeconds := newRemaining,
                     lastTickAt := some (l + secondsPassed * 1000) }
      else t
    else t

/-- The whole `setInterval` callback (TimerContext.tsx lines 190-228),
including the no-running-timer early return. -/
def tickTimers (now : Int) (ts : List Timer) : List Timer :=
  if ts.any (fun t => t.isRunning) then ts.map (tickTimer now) else ts

/-- Per-timer catch-up logic applied on load
(TimerContext.tsx lines 106-130; identical code at lines 40-64 for the
local-storage path).  Differences from `tickTimer`: the guard is
`deltaMs > 0` rather than `deltaMs >= 1000`, the goal branch computes
`Math.max(0, remainingSeconds - secondsPassed)` and assigns
`isRunning = !isFinished` explicitly. -/
def catchUpTimer (now : Int) (t : Timer) : Timer :=
  match t.lastTickAt with
  | none => t
  | some l =>
    if t.isRunning && l != 0 then
      let deltaMs := now - l
      if deltaMs > 0 then
        let secondsPassed := secondsPassedOf deltaMs
        match t.type with
        | TimerType.stopwatch =>
          { t with elapsedSeconds := t.elapsedSeconds + secondsPassed,
                   lastTickAt := some (l + secondsPassed * 1000) }
        | TimerType.goal =>
          let newRemaining := max 0 (t.remainingSeconds - secondsPassed)
          let isFinished := newRemaining ≤ 0
          { t with remainingSeconds := newRemaining,
                   lastTickAt := if isFinished then none
                                 else some (l + secondsPassed * 1000),
                   isRunning := !(decide isFinished) }
      else t
    else t

/-- The whole catch-up pass (`mapped.map(...)` / `loaded.map(...)`). -/
def catchUp (now : Int) (ts : List Timer) : List Timer :=
  ts.map (catchUpTimer now)

/-- The timer constructed by `addTimer` (TimerContext.tsx lines 234-241):
`remainingSeconds = totalSeconds`, `elapsedSeconds = 0`,
`isRunning = false`, `lastTickAt` absent. -/
def mkTimer (id title : String) (ty : TimerType) (total : Int)
    (color : String) (size : TimerSize) : Timer :=
  { id := id, type := ty, title := title,
    totalSeconds := total, remainingSeconds := total, elapsedSeconds := 0,
    isRunning := false, color := color, size := size, lastTickAt := none }

/-- The action `addTimer` appends the new timer: `setTimers(prev => [...prev, timer])`. -/
def addTimer (ts : List Timer) (id title : String) (ty : TimerType)
    (total : Int) (color : String) (size : TimerSize) : List Timer :=
  ts ++ [mkTimer id title ty total color size]

/-- Embedding of `Partial<Timer>`: every field optionally present.  A present field
overwrites the timer's field on merge (`{ ...t, ...updates }`); for the
already-optional `lastTickAt` a present update carries an `Option Int`. -/
structure TimerUpdate where
  id : Option String := none
  type : Option TimerType := none
  title : Option String := none
  totalSeconds : Option Int := none
  remainingSeconds : Option Int := none
  elapsedSeconds : Option Int := none
  isRunning : Option Bool := none
  color : Option String := none
  size : Option TimerSize := none
  lastTickAt : Option (Option Int) := none
deriving Repr, DecidableEq

/-- The spread merge `{ ...t, ...updates }`. -/
def applyUpdate (t : Timer) (u : TimerUpdate) : Timer :=
  { id := u.id.getD t.id,
    type := u.type.getD t.type,
    title := u.title.getD t.title,
    totalSeconds := u.totalSeconds.getD t.totalSeconds,
    remainingSeconds := u.remainingSeconds.getD t.remainingSeconds,
    elapsedSeconds := u.elapsedSeconds.getD t.elapsedSeconds,
    isRunning := u.isRunning.getD t.isRunning,
    color := u.color.getD t.color,
    size := u.size.getD t.size,
    lastTickAt := u.lastTickAt.getD t.lastTickAt }

/-- The action `updateTimer` (TimerContext.tsx lines 260-261, local state part):
`prev.map(t => t.id === id ? { ...t, ...updates } : t)`. -/
def updateTimer (ts : List Timer) (id : String) (u : TimerUpdate) : List Timer :=
  ts.map (fun t => if t.id == id then applyUpdate t u else t)

/-- The action `deleteTimer` (TimerContext.tsx lines 281-282):
`prev.filter(t => t.id !== id)`. -/
def deleteTimer (ts : List Timer) (id : String) : List Timer :=
  ts.filter (fun t => t.id != id)

/-- The action `toggleTimer` (TimerContext.tsx lines 288-300, current revision):
find the timer, flip only it; absent id is an early return. -/
def toggleTimer (now : Int) (ts : List Timer) (id : String) : List Timer :=
  match ts.find? (fun t => t.id == id) with
  | none => ts
  | some timer =>
    let isStarting := !timer.isRunning
    let nextTimer :=
      { timer with isRunning := isStarting,
                   lastTickAt := if isStarting then some now else none }
    ts.map (fun t => if t.id == id then nextTimer else t)

/-- Variant: `toggleTimer` of the earlier, local-only revision of the store
(src/unnamed/part_001 lines 253-267): starting one timer also pauses
every other running timer. -/
def toggleTimerLocal (now : Int) (ts : List Timer) (id : String) : List Timer :=
  ts.map (fun t =>
    if t.id == id then
      if !t.isRunning then
        { t with isRunning := true, lastTickAt := some now }
      else
        { t with isRunning := false, lastTickAt := none }
    else if t.isRunning then
      { t with isRunning := false, lastTickAt := none }
    else t)

/-- The action `deductTime` (TimerContext.tsx lines 312-334, local state part). -/
def deductTime (ts : List Timer) (id : String) (seconds : Int) : List Timer :=
  match ts.find? (fun t => t.id == id) with
  | none => ts
  | some timer =>
    let nextTimer :=
      match timer.type with
      | TimerType.stopwatch =>
        { timer with elapsedSeconds := timer.elapsedSeconds + seconds }
      | TimerType.goal =>
        let newRemaining := max 0 (timer.remainingSeconds - seconds)
        let isFinished := newRemaining ≤ 0
        { timer with remainingSeconds := newRemaining,
                     isRunning := if isFinished then false else timer.isRunning,
                     lastTickAt := if isFinished then none else timer.lastTickAt }
    ts.map (fun t => if t.id == id then nextTimer else t)

/-- The snapshot entry built by `resetWeek` (TimerContext.tsx lines 353-359). -/
def snapshotOf (t : Timer) : SnapshotItem :=
  { title := t.title, type := t.type, totalSeconds := t.totalSeconds,
    completedSeconds :=
      match t.type with
      | TimerType.stopwatch => t.elapsedSeconds
      | TimerType.goal => t.totalSeconds - t.remainingSeconds,
    color := t.color }

/-- The in-place reset applied to each timer by `resetWeek`
(TimerContext.tsx lines 370-376). -/
def resetTimer (t : Timer) : Timer :=
  { t with remainingSeconds := t.totalSeconds, elapsedSeconds := 0,
           isRunning := false, lastTickAt := none }

/-- The action `resetWeek` (TimerContext.tsx lines 346-376, local state parts):
prepends the snapshot record to history and resets every timer.
Returns (new timer list, new history list). -/
def resetWeek (snapshotId weekStart : String) (ts : List Timer)
    (hist : List WeekHistory) : List Timer × List WeekHistory :=
  let snapshot : WeekHistory :=
    { id := snapshotId, weekStart := weekStart,
      timersSnapshot := ts.map snapshotOf }
  (ts.map resetTimer, snapshot :: hist)

/-- The data-model invariant from the spec: `isRunning == true ⇔ lastTickAt is set`,
as a decidable check on one timer. -/
def runningIffTick (t : Timer) : Bool :=
  t.isRunning == t.lastTickAt.isSome

/-- One aggregate mutation, used to quantify over "every operation". -/
inductive Op where
  | add (id title : String) (ty : TimerType) (total : Int) (color : String) (size : TimerSize)
  | update (id : String) (u : TimerUpdate)
  | del (id : String)
  | toggle (now : Int) (id : String)
  | deduct (id : String) (seconds : Int)
  | tick (now : Int)
  | catchup (now : Int)
  | reset (snapshotId weekStart : String)

/-- Effect of an operation on the timer list (the `resetWeek` case takes
the timer component; history is handled separately by `resetWeek`). -/
def applyOp (op : Op) (ts : List Timer) : List Timer :=
  match op with
  | Op.add id title ty total color size => addTimer ts id title ty total color size
  | Op.update id u => updateTimer ts id u
  | Op.del id => deleteTimer ts id
  | Op.toggle now id => toggleTimer now ts id
  | Op.deduct id seconds => deductTime ts id seconds
  | Op.tick now => tickTimers now ts
  | Op.catchup now => catchUp now ts
  | Op.reset snapshotId weekStart => (resetWeek snapshotId weekStart ts []).1

/-- One application of the Tick Engine's per-second update: the interval
callback fires with `deltaMs` exactly 1000, i.e. at wall-clock time
`lastTickAt + 1000` (for a timer without `lastTickAt` the guard fails and
the `now` argument is irrelevant). -/
def tickSecond (t : Timer) : Timer :=
  tickTimer (t.lastTickAt.getD 0 + 1000) t

/-- One step of a sequence of Tick Engine updates and Catch-Up Reconciler
applications, each at some wall-clock time. -/
inductive TickStep where
  | tick (now : Int)
  | catchup (now : Int)

/-- Apply one `TickStep` to a timer. -/
def applyStep : TickStep → Timer → Timer
  | TickStep.tick now, t => tickTimer now t
  | TickStep.catchup now, t => catchUpTimer now t

/-- Apply a sequence of ticks / reconciliations, oldest first. -/
def applySteps (steps : List TickStep) (t : Timer) : Timer :=
  steps.foldl (fun t s => applyStep s t) t

/-- Sample timer: a goal timer that is not running. -/
def timerA : Timer :=
  mkTimer "a" "A" TimerType.goal 3600 "red" TimerSize.small

/-- Sample timer: a goal timer that is running, `lastTickAt = 500`. -/
def timerB : Timer :=
  { mkTimer "b" "B" TimerType.goal 3600 "blue" TimerSize.medium with
      isRunning := true, lastTickAt := some 500 }

/-- Sample partial update touching only `isRunning` (a legal
`Partial<Timer>` value: `{ isRunning: true }`). -/
def updSetRunning : TimerUpdate :=
  { isRunning := some true }

/-! Theorems. -/

/-- Supporting fact: in the earlier local-only revision
(src/unnamed/part_001), `toggleTimer` pauses every timer other than the
toggled one, which is the single-running behaviour the spec describes. -/
theorem toggleTimerLocal_pauses_others (now : Int) (ts : List Timer) (id : String) :
    ∀ t ∈ toggleTimerLocal now ts id, t.id ≠ id → t.isRunning = false := by
  intro t ht hne
  simp only [toggleTimerLocal, List.mem_map] at ht
  obtain ⟨a, ha, rfl⟩ := ht
  by_cases h1 : (a.id == id) = true
  · simp only [h1, if_true] at hne
    by_cases h2 : a.isRunning
    · simp only [h2, Bool.not_true, if_neg] at hne
      exact absurd (by simpa using h1) (by simpa using hne)
    · simp only [h2, Bool.not_false, if_pos] at hne
      exact absurd (by simpa using h1) (by simpa using hne)
  · simp only [h1, if_false]
    by_cases h2 : a.isRunning = true
    · simp [h2]
    · simp only [Bool.not_eq_true] at h2
      simp [h2]

/-- C1 (code bug): in the current `toggleTimer`
(src/src/store/TimerContext.tsx lines 288-310), starting timer "a" does
NOT pause the other running timer "b": after the call both are running,
violating the spec's single-running invariant.  Failing input: the list
`[timerA (paused), timerB (running, lastTickAt 500)]`, call
`toggleTimer("a")` at `now = 1000`. -/
theorem toggleTimer_leaves_others_running :
    (toggleTimer 1000 [timerA, timerB] "a").map (fun t => (t.id, t.isRunning))
      = [("a", true), ("b", true)] := by
  rfl

/-- C8: the Catch-Up Reconciler applies no change to a running timer
whose `lastTickAt` is at or after the load-time `now` (`deltaMs <= 0`,
clock skew or immediate reload): all fields are returned unchanged. -/
theorem catchUpTimer_skew_noop (t : Timer) (now l : Int)
    (_hrun : t.isRunning = true) (hL : t.lastTickAt = some l) (hskew : now ≤ l) :
    catchUpTimer now t = t := by
  simp only [catchUpTimer, hL]
  have hnot : ¬ (now - l > 0) := by omega
  simp [hnot]

/-- Witness for C8 at a concrete input: a running goal timer with
`lastTickAt = 9000` reconciled at `now = 8000` is unchanged. -/
theorem catchUpTimer_skew_noop_witness :
    catchUpTimer 8000 { timerB with lastTickAt := some 9000 }
      = { timerB with lastTickAt := some 9000 } :=
  catchUpTimer_skew_noop { timerB with lastTickAt := some 9000 } 8000 9000
    rfl rfl (by decide)

/-- C9: for an id not present in the list, `updateTimer` and
`deleteTimer` are silent no-ops: the timer list is exactly unchanged. -/
theorem updateTimer_deleteTimer_not_found_noop (ts : List Timer) (id : String)
    (u : TimerUpdate) (h : ∀ t ∈ ts, t.id ≠ id) :
    updateTimer ts id u = ts ∧ deleteTimer ts id = ts := by
  constructor
  · have hmap : ts.map (fun t => if t.id == id then applyUpdate t u else t)
        = ts.map (fun t => t) :=
      List.map_congr_left (fun t ht => by simp [h t ht])
    simpa [updateTimer] using hmap
  · simp only [deleteTimer]
    apply List.filter_eq_self.mpr
    intro a ha
    simp [h a ha]

/-- Witness for C9 at a concrete input: updating or deleting id "z" in
`[timerA, timerB]` changes nothing. -/
theorem updateTimer_deleteTimer_not_found_noop_witness :
    updateTimer [timerA, timerB] "z" updSetRunning = [timerA, timerB] ∧
      deleteTimer [timerA, timerB] "z" = [timerA, timerB] :=
  updateTimer_deleteTimer_not_found_noop [timerA, timerB] "z" updSetRunning
    (by decide)

/-- C10: for an id not present in the list, `toggleTimer` leaves the
entire timer list unchanged (in particular a currently running timer
stays running). -/
theorem toggleTimer_not_found_noop (now : Int) (ts : List Timer) (id : String)
    (h : ∀ t ∈ ts, t.id ≠ id) :
    toggleTimer now ts id = ts := by
  have hfind : ts.find? (fun t => t.id == id) = none :=
    List.find?_eq_none.mpr (fun t ht => by simp [h t ht])
  simp [toggleTimer, hfind]

/-- Witness for C10 at a concrete input: toggling the absent id "z"
leaves `[timerA, timerB]` (timerB running) unchanged, so timerB stays
running. -/
theorem toggleTimer_not_found_noop_witness :
    toggleTimer 1000 [timerA, timerB] "z" = [timerA, timerB] ∧
      timerB.isRunning = true :=
  ⟨toggleTimer_not_found_noop 1000 [timerA, timerB] "z" (by decide), rfl⟩

/-- C2: one tick of the engine on a running Goal timer with
`lastTickAt = l` at wall-clock `now`: no update unless `now - l >= 1000`;
otherwise with `secondsPassed = floor((now - l)/1000)` the new
`remainingSeconds` is `max 0 (remainingSeconds - secondsPassed)`; if that
is 0 the timer stops (`isRunning = false`, `lastTickAt` cleared), else it
keeps running with `lastTickAt = l + secondsPassed * 1000` (not `now`).
In particular `now - l = 5000` deducts exactly 5 seconds. -/
theorem tickTimer_goal_spec (t : Timer) (now l : Int)
    (hty : t.type = TimerType.goal) (hrun : t.isRunning = true)
    (hL : t.lastTickAt = some l) (hl : l ≠ 0) :
    (now - l < 1000 → tickTimer now t = t) ∧
    (1000 ≤ now - l →
      ((tickTimer now t).remainingSeconds
          = max 0 (t.remainingSeconds - secondsPassedOf (now - l)) ∧
       (max 0 (t.remainingSeconds - secondsPassedOf (now - l)) = 0 →
          (tickTimer now t).isRunning = false ∧
          (tickTimer now t).lastTickAt = none) ∧
       (0 < max 0 (t.remainingSeconds - secondsPassedOf (now - l)) →
          (tickTimer now t).isRunning = true ∧
          (tickTimer now t).lastTickAt
            = some (l + secondsPassedOf (now - l) * 1000)))) ∧
    (now - l = 5000 →
      (tickTimer now t).remainingSeconds = max 0 (t.remainingSeconds - 5)) := by
  have hguard : (t.isRunning && (l != 0)) = true := by
    simp [hrun, hl]
  have hpass : (0 : Int) ≤ secondsPassedOf (now - l) := by
    show (0 : Int) ≤ (((now - l).toNat / 1000 : Nat) : Int)
    exact Int.natCast_nonneg _
  have hbody : ∀ _hge : 1000 ≤ now - l,
      tickTimer now t =
        (if t.remainingSeconds - secondsPassedOf (now - l) ≤ 0 then
          { t with remainingSeconds := 0, isRunning := false, lastTickAt := none }
        else
          { t with remainingSeconds := t.remainingSeconds - secondsPassedOf (now - l),
                   lastTickAt := some (l + secondsPassedOf (now - l) * 1000) }) := by
    intro hge
    simp only [tickTimer, hL, hguard, hty, ge_iff_le, hge, if_true, ite_true]
  refine ⟨?_, ?_, ?_⟩
  · intro hlt
    have hnot : ¬ (1000 ≤ now - l) := by omega
    simp only [tickTimer, hL, hguard, hty, ge_iff_le, hnot, if_true, ite_true,
      if_false, ite_false]
  · intro hge
    rw [hbody hge]
    set s := secondsPassedOf (now - l) with hs
    by_cases hfin : t.remainingSeconds - s ≤ 0
    · have hmax : max 0 (t.remainingSeconds - s) = 0 := by omega
      simp [hfin, hmax]
    · have hmax : max 0 (t.remainingSeconds - s) = t.remainingSeconds - s := by omega
      refine ⟨by simp [hfin, hmax], ?_, ?_⟩
      · intro hzero
        omega
      · intro hposr
        simp [hfin, hrun]
  · intro h5000
    have hge : 1000 ≤ now - l := by omega
    have hsval : secondsPassedOf (now - l) = 5 := by
      rw [h5000]
      decide
    rw [hbody hge, hsval]
    by_cases hfin : t.remainingSeconds - 5 ≤ 0
    · have hmax : max 0 (t.remainingSeconds - 5) = 0 := by omega
      simp [hfin, hmax]
    · have hmax : max 0 (t.remainingSeconds - 5) = t.remainingSeconds - 5 := by omega
      simp [hfin, hmax]

/-- Witness for C2 at a concrete input: goal timer, `remainingSeconds = 3`,
`lastTickAt = 2000`, ticked at `now = 7000` (so `deltaMs = 5000`):
the result has `remainingSeconds = max 0 (3 - 5) = 0`. -/
theorem tickTimer_goal_spec_witness :
    (7000 - 2000 = 5000) ∧
      (tickTimer 7000 { timerB with remainingSeconds := 3, lastTickAt := some 2000 }).remainingSeconds
        = max 0 (3 - 5) := by
  refine ⟨by decide, ?_⟩
  have h := tickTimer_goal_spec
    { timerB with remainingSeconds := 3, lastTickAt := some 2000 }
    7000 2000 rfl rfl rfl (by decide)
  exact h.2.2 (by decide)

/-- C5: `deductTime(id, seconds)` on the timer found for `id` replaces it
in the list with `d`, where for a Stopwatch `d` just adds `seconds` to
`elapsedSeconds`, and for a Goal `d.remainingSeconds` is
`max 0 (remainingSeconds - seconds)`; if that is 0 the timer is forced
stopped with `lastTickAt` cleared, else running state and `lastTickAt`
are untouched.  In particular `remainingSeconds = 3`, `seconds = 10`
yields `remainingSeconds = 0` and `isRunning = false`. -/
theorem deductTime_spec (ts : List Timer) (id : String) (seconds : Int) (t : Timer)
    (hfind : ts.find? (fun x => x.id == id) = some t) (_hpos : 0 < seconds) :
    ∃ d, deductTime ts id seconds = ts.map (fun x => if x.id == id then d else x) ∧
      (t.type = TimerType.stopwatch →
        d = { t with elapsedSeconds := t.elapsedSeconds + seconds }) ∧
      (t.type = TimerType.goal →
        (d.remainingSeconds = max 0 (t.remainingSeconds - seconds) ∧
         (max 0 (t.remainingSeconds - seconds) = 0 →
            d.isRunning = false ∧ d.lastTickAt = none) ∧
         (0 < max 0 (t.remainingSeconds - seconds) →
            d.isRunning = t.isRunning ∧ d.lastTickAt = t.lastTickAt) ∧
         (t.remainingSeconds = 3 → seconds = 10 →
            d.remainingSeconds = 0 ∧ d.isRunning = false))) := by
  obtain ⟨tid, tty, ttitle, ttot, trem, tela, trun, tcol, tsz, tlast⟩ := t
  cases tty with
  | stopwatch =>
    refine ⟨{ id := tid, type := TimerType.stopwatch, title := ttitle,
              totalSeconds := ttot, remainingSeconds := trem,
              elapsedSeconds := tela + seconds, isRunning := trun,
              color := tcol, size := tsz, lastTickAt := tlast }, ?_, ?_, ?_⟩
    · simp only [deductTime, hfind]
    · intro _
      rfl
    · intro hgoal
      simp at hgoal
  | goal =>
    refine ⟨{ id := tid, type := TimerType.goal, title := ttitle,
              totalSeconds := ttot,
              remainingSeconds := max 0 (trem - seconds),
              elapsedSeconds := tela,
              isRunning := (if max 0 (trem - seconds) ≤ 0 then false else trun),
              color := tcol, size := tsz,
              lastTickAt := (if max 0 (trem - seconds) ≤ 0 then none else tlast) },
            ?_, ?_, ?_⟩
    · simp only [deductTime, hfind]
    · intro hsw
      simp at hsw
    · intro _
      dsimp only
      have hge : 0 ≤ max 0 (trem - seconds) := le_max_left _ _
      refine ⟨rfl, ?_, ?_, ?_⟩
      · intro hzero
        have hle : max 0 (trem - seconds) ≤ 0 := by omega
        simp [hle]
      · intro hposr
        have hlt : ¬ max 0 (trem - seconds) ≤ 0 := by omega
        simp [hlt]
      · intro h3 h10
        subst h3
        subst h10
        have hle : max (0 : Int) (3 - 10) ≤ 0 := by decide
        refine ⟨by decide, by simp [hle]⟩

/-- Witness for C5 at a concrete input: `deductTime("b", 10)` on the list
holding a goal timer "b" with `remainingSeconds = 3` yields a replacement
timer with `remainingSeconds = 0` and `isRunning = false`. -/
theorem deductTime_spec_witness :
    ∃ d, deductTime [timerA, { timerB with remainingSeconds := 3 }] "b" 10
          = [timerA, { timerB with remainingSeconds := 3 }].map
              (fun x => if x.id == "b" then d else x) ∧
        d.remainingSeconds = 0 ∧ d.isRunning = false := by
  obtain ⟨d, hmap, _, hgoal⟩ :=
    deductTime_spec [timerA, { timerB with remainingSeconds := 3 }] "b" 10
      { timerB with remainingSeconds := 3 } (by decide) (by decide)
  obtain ⟨-, -, -, hlast⟩ := hgoal rfl
  exact ⟨d, hmap, hlast rfl rfl⟩

/-- Helper: one tick preserves the running-iff-lastTickAt invariant. -/
theorem runningIffTick_tickTimer (now : Int) (t : Timer)
    (h : runningIffTick t = true) : runningIffTick (tickTimer now t) = true := by
  cases hL : t.lastTickAt with
  | none =>
    simp only [tickTimer, hL]
    exact h
  | some l =>
    simp only [tickTimer, hL]
    by_cases hg : (t.isRunning && (l != 0)) = true
    · rw [if_pos hg]
      have hrun : t.isRunning = true := by
        have hg2 := hg
        simp only [Bool.and_eq_true] at hg2
        exact hg2.1
      by_cases hge : (now - l ≥ 1000)
      · simp only [hge, if_true, ite_true]
        cases hty : t.type with
        | stopwatch => simp [runningIffTick, hrun]
        | goal =>
          by_cases hfin : t.remainingSeconds - secondsPassedOf (now - l) ≤ 0
          · simp [hfin, runningIffTick]
          · simp [hfin, runningIffTick, hrun]
      · simp only [hge, if_false, ite_false]
        exact h
    · rw [if_neg hg]
      exact h

/-- Helper: one catch-up reconciliation preserves the invariant. -/
theorem runningIffTick_catchUpTimer (now : Int) (t : Timer)
    (h : runningIffTick t = true) : runningIffTick (catchUpTimer now t) = true := by
  cases hL : t.lastTickAt with
  | none =>
    simp only [catchUpTimer, hL]
    exact h
  | some l =>
    simp only [catchUpTimer, hL]
    by_cases hg : (t.isRunning && (l != 0)) = true
    · rw [if_pos hg]
      have hrun : t.isRunning = true := by
        have hg2 := hg
        simp only [Bool.and_eq_true] at hg2
        exact hg2.1
      by_cases hgt : (now - l > 0)
      · simp only [hgt, if_true, ite_true]
        cases hty : t.type with
        | stopwatch => simp [runningIffTick, hrun]
        | goal =>
          by_cases hfin : max 0 (t.remainingSeconds - secondsPassedOf (now - l)) ≤ 0
          · simp [hfin, runningIffTick]
          · simp [hfin, runningIffTick]
      · simp only [hgt, if_false, ite_false]
        exact h
    · rw [if_neg hg]
      exact h

/-- Helper: a partial update not touching `isRunning` or `lastTickAt`
preserves the invariant. -/
theorem runningIffTick_applyUpdate (t : Timer) (u : TimerUpdate)
    (hR : u.isRunning = none) (hT : u.lastTickAt = none)
    (h : runningIffTick t = true) : runningIffTick (applyUpdate t u) = true := by
  simpa [runningIffTick, applyUpdate, hR, hT] using h

/-- C6 counterexample: the claim fails for `updateTimer` with an
arbitrary partial update.  The paused timerA satisfies
`isRunning ⇔ lastTickAt set`, but after `updateTimer("a", {isRunning: true})`
the single timer in the list violates it (`isRunning = true`,
`lastTickAt` absent). -/
theorem updateTimer_breaks_running_iff :
    runningIffTick timerA = true ∧
      (updateTimer [timerA] "a" updSetRunning).map runningIffTick = [false] := by
  exact ⟨rfl, rfl⟩

/-- C6 (amended): every operation preserves the invariant
`isRunning == true ⇔ lastTickAt set` for every timer in the list,
provided an `updateTimer` call does not itself supply the `isRunning` or
`lastTickAt` fields (an arbitrary `Partial<Timer>` can break it). -/
theorem ops_preserve_running_iff (op : Op) (ts : List Timer)
    (hinv : ∀ t ∈ ts, runningIffTick t = true)
    (hupd : ∀ id u, op = Op.update id u → u.isRunning = none ∧ u.lastTickAt = none) :
    ∀ t' ∈ applyOp op ts, runningIffTick t' = true := by
  intro t' ht'
  cases op with
  | add id title ty total color size =>
    simp only [applyOp, addTimer, List.mem_append, List.mem_singleton] at ht'
    rcases ht' with h1 | h2
    · exact hinv _ h1
    · subst h2
      rfl
  | update id u =>
    obtain ⟨hR, hT⟩ := hupd id u rfl
    simp only [applyOp, updateTimer, List.mem_map] at ht'
    obtain ⟨a, ha, rfl⟩ := ht'
    by_cases hid : (a.id == id) = true
    · rw [if_pos hid]
      exact runningIffTick_applyUpdate a u hR hT (hinv a ha)
    · rw [if_neg hid]
      exact hinv a ha
  | del id =>
    simp only [applyOp, deleteTimer, List.mem_filter] at ht'
    exact hinv _ ht'.1
  | toggle now id =>
    simp only [applyOp, toggleTimer] at ht'
    cases hfind : List.find? (fun t => t.id == id) ts with
    | none =>
      rw [hfind] at ht'
      exact hinv _ ht'
    | some timer =>
      rw [hfind] at ht'
      simp only [List.mem_map] at ht'
      obtain ⟨a, ha, rfl⟩ := ht'
      by_cases hid : (a.id == id) = true
      · rw [if_pos hid]
        cases hrun : timer.isRunning <;> simp [runningIffTick, hrun]
      · rw [if_neg hid]
        exact hinv a ha
  | deduct id seconds =>
    simp only [applyOp, deductTime] at ht'
    cases hfind : List.find? (fun t => t.id == id) ts with
    | none =>
      rw [hfind] at ht'
      exact hinv _ ht'
    | some timer =>
      rw [hfind] at ht'
      have htm : runningIffTick timer = true :=
        hinv _ (List.mem_of_find?_eq_some hfind)
      simp only [List.mem_map] at ht'
      obtain ⟨a, ha, rfl⟩ := ht'
      by_cases hid : (a.id == id) = true
      · rw [if_pos hid]
        cases hty : timer.type with
        | stopwatch => simpa [runningIffTick] using htm
        | goal =>
          by_cases hfin : max 0 (timer.remainingSeconds - seconds) ≤ 0
          · simp [hfin, runningIffTick]
          · simpa [hfin, runningIffTick] using htm
      · rw [if_neg hid]
        exact hinv a ha
  | tick now =>
    simp only [applyOp, tickTimers] at ht'
    by_cases hany : ts.any (fun t => t.isRunning) = true
    · rw [if_pos hany] at ht'
      simp only [List.mem_map] at ht'
      obtain ⟨a, ha, rfl⟩ := ht'
      exact runningIffTick_tickTimer now a (hinv a ha)
    · rw [if_neg hany] at ht'
      exact hinv _ ht'
  | catchup now =>
    simp only [applyOp, catchUp, List.mem_map] at ht'
    obtain ⟨a, ha, rfl⟩ := ht'
    exact runningIffTick_catchUpTimer now a (hinv a ha)
  | reset sid ws =>
    simp only [applyOp, resetWeek, List.mem_map] at ht'
    obtain ⟨a, ha, rfl⟩ := ht'
    rfl

/-- Witness for the amended C6 at a concrete input: toggling "a" in a
list satisfying the invariant yields a list where every timer still
satisfies it. -/
theorem ops_preserve_running_iff_witness :
    (applyOp (Op.toggle 1000 "a") [timerA, timerB]).all runningIffTick = true := by
  apply List.all_eq_true.mpr
  intro t' ht'
  exact ops_preserve_running_iff (Op.toggle 1000 "a") [timerA, timerB]
    (by decide) (fun id u h => by cases h) t' ht'

/-- Helper: pointwise relation between a list and its map. -/
theorem forall2_map_self {α β : Type} (r : α → β → Prop) (f : α → β)
    (l : List α) (h : ∀ a ∈ l, r a (f a)) : List.Forall₂ r l (l.map f) := by
  induction l with
  | nil => exact List.Forall₂.nil
  | cons a as ih =>
    exact List.Forall₂.cons (h a (List.mem_cons_self a as))
      (ih (fun x hx => h x (List.mem_cons_of_mem a hx)))

/-- C4: `resetWeek` prepends to the history exactly one record carrying
the given id and week start whose snapshot is, timer by timer,
`{title, type, totalSeconds, completedSeconds, color}` with
`completedSeconds = elapsedSeconds` for a Stopwatch and
`totalSeconds - remainingSeconds` for a Goal, all read from the state at
invocation; and the resulting timer list has, timer by timer,
`remainingSeconds = totalSeconds`, `elapsedSeconds = 0`,
`isRunning = false`, `lastTickAt` absent, with id, title, color, size and
type unchanged. -/
theorem resetWeek_spec (sid ws : String) (ts : List Timer) (hist : List WeekHistory) :
    ∃ h : WeekHistory, (resetWeek sid ws ts hist).2 = h :: hist ∧
      h.id = sid ∧ h.weekStart = ws ∧
      List.Forall₂ (fun (t : Timer) (item : SnapshotItem) =>
          item.title = t.title ∧ item.type = t.type ∧
          item.totalSeconds = t.totalSeconds ∧ item.color = t.color ∧
          item.completedSeconds =
            (if t.type = TimerType.stopwatch then t.elapsedSeconds
             else t.totalSeconds - t.remainingSeconds))
        ts h.timersSnapshot ∧
      List.Forall₂ (fun (t : Timer) (r : Timer) =>
          r.remainingSeconds = r.totalSeconds ∧ r.elapsedSeconds = 0 ∧
          r.isRunning = false ∧ r.lastTickAt = none ∧
          r.id = t.id ∧ r.title = t.title ∧ r.color = t.color ∧
          r.size = t.size ∧ r.type = t.type ∧ r.totalSeconds = t.totalSeconds)
        ts (resetWeek sid ws ts hist).1 := by
  refine ⟨{ id := sid, weekStart := ws, timersSnapshot := ts.map snapshotOf },
    rfl, rfl, rfl, ?_, ?_⟩
  · apply forall2_map_self
    intro t _
    cases hty : t.type with
    | goal => simp [snapshotOf, hty]
    | stopwatch => simp [snapshotOf, hty]
  · apply forall2_map_self
    intro t _
    simp [resetTimer]

/-- C7: for a Stopwatch timer, `elapsedSeconds` never decreases across
any sequence of Tick Engine updates and Catch-Up Reconciler
applications. -/
theorem stopwatch_elapsed_monotone (steps : List TickStep) (t : Timer)
    (hty : t.type = TimerType.stopwatch) :
    t.elapsedSeconds ≤ (applySteps steps t).elapsedSeconds := by
  have hstep : ∀ (s : TickStep) (x : Timer),
      x.elapsedSeconds ≤ (applyStep s x).elapsedSeconds := by
    intro s x
    have hpass : ∀ d : Int, (0 : Int) ≤ secondsPassedOf d := by
      intro d
      show (0 : Int) ≤ ((d.toNat / 1000 : Nat) : Int)
      exact Int.natCast_nonneg _
    cases s with
    | tick now =>
      cases hL : x.lastTickAt with
      | none => simp [applyStep, tickTimer, hL]
      | some l =>
        simp only [applyStep, tickTimer, hL]
        by_cases hg : (x.isRunning && (l != 0)) = true
        · rw [if_pos hg]
          by_cases hge : (now - l ≥ 1000)
          · simp only [hge, if_true, ite_true]
            cases hty' : x.type with
            | stopwatch =>
              have := hpass (now - l)
              simp only []
              omega
            | goal =>
              by_cases hfin : x.remainingSeconds - secondsPassedOf (now - l) ≤ 0
              · simp [hfin]
              · simp [hfin]
          · simp [hge]
        · rw [if_neg hg]
    | catchup now =>
      cases hL : x.lastTickAt with
      | none => simp [applyStep, catchUpTimer, hL]
      | some l =>
        simp only [applyStep, catchUpTimer, hL]
        by_cases hg : (x.isRunning && (l != 0)) = true
        · rw [if_pos hg]
          by_cases hgt : (now - l > 0)
          · simp only [hgt, if_true, ite_true]
            cases hty' : x.type with
            | stopwatch =>
              have := hpass (now - l)
              simp only []
              omega
            | goal => simp
          · simp [hgt]
        · rw [if_neg hg]
  induction steps generalizing t with
  | nil => exact le_refl _
  | cons s ss ih =>
    have htype : (applyStep s t).type = t.type := by
      cases s with
      | tick now =>
        cases hL : t.lastTickAt with
        | none => simp [applyStep, tickTimer, hL]
        | some l =>
          simp only [applyStep, tickTimer, hL]
          by_cases hg : (t.isRunning && (l != 0)) = true
          · rw [if_pos hg]
            by_cases hge : (now - l ≥ 1000)
            · simp only [hge, if_true, ite_true]
              cases hty' : t.type with
              | stopwatch => simp
              | goal =>
                by_cases hfin : t.remainingSeconds - secondsPassedOf (now - l) ≤ 0
                · simp [hfin, hty']
                · simp [hfin, hty']
            · simp [hge]
          · rw [if_neg hg]
      | catchup now =>
        cases hL : t.lastTickAt with
        | none => simp [applyStep, catchUpTimer, hL]
        | some l =>
          simp only [applyStep, catchUpTimer, hL]
          by_cases hg : (t.isRunning && (l != 0)) = true
          · rw [if_pos hg]
            by_cases hgt : (now - l > 0)
            · simp only [hgt, if_true, ite_true]
              cases hty' : t.type with
              | stopwatch => simp
              | goal => simp
            · simp [hgt]
          · rw [if_neg hg]
    calc t.elapsedSeconds ≤ (applyStep s t).elapsedSeconds := hstep s t
      _ ≤ (applySteps ss (applyStep s t)).elapsedSeconds :=
          ih (applyStep s t) (by rw [htype, hty])
      _ = (applySteps (s :: ss) t).elapsedSeconds := rfl

/-- Witness for C7 at a concrete input: a running stopwatch timer ticked
at 3000 and then reconciled at 10000 never loses elapsed seconds. -/
theorem stopwatch_elapsed_monotone_witness :
    ({ timerB with type := TimerType.stopwatch } : Timer).elapsedSeconds ≤
      (applySteps [TickStep.tick 3000, TickStep.catchup 10000]
        { timerB with type := TimerType.stopwatch }).elapsedSeconds :=
  stopwatch_elapsed_monotone [TickStep.tick 3000, TickStep.catchup 10000]
    { timerB with type := TimerType.stopwatch } rfl

/-- Helper: two timers with equal fields are equal. -/
theorem Timer.fields_eq (a b : Timer)
    (h1 : a.id = b.id) (h2 : a.type = b.type) (h3 : a.title = b.title)
    (h4 : a.totalSeconds = b.totalSeconds)
    (h5 : a.remainingSeconds = b.remainingSeconds)
    (h6 : a.elapsedSeconds = b.elapsedSeconds) (h7 : a.isRunning = b.isRunning)
    (h8 : a.color = b.color) (h9 : a.size = b.size)
    (h10 : a.lastTickAt = b.lastTickAt) : a = b := by
  cases a
  cases b
  simp_all

/-- Helper: one per-second tick of a running stopwatch adds one second
and advances `lastTickAt` by 1000 ms. -/
theorem tickSecond_stopwatch_eq (t : Timer) (l : Int)
    (hty : t.type = TimerType.stopwatch) (hrun : t.isRunning = true)
    (hL : t.lastTickAt = some l) (hl : l ≠ 0) :
    tickSecond t = { t with elapsedSeconds := t.elapsedSeconds + 1,
                            lastTickAt := some (l + 1000) } := by
  have hguard : (t.isRunning && (l != 0)) = true := by simp [hrun, hl]
  have hge : l + 1000 - l ≥ (1000 : Int) := by omega
  have hsp : secondsPassedOf (l + 1000 - l) = 1 := by
    have harith : l + 1000 - l = (1000 : Int) := by ring
    rw [harith]
    decide
  simp only [tickSecond, hL, Option.getD_some, tickTimer, hguard, hty,
    ge_iff_le, hge, if_true, ite_true, hsp]
  exact Timer.fields_eq _ _ rfl rfl rfl rfl rfl rfl rfl rfl rfl (by norm_num)

/-- Helper: one per-second tick of a running goal timer with more than
one second remaining deducts one second and advances `lastTickAt`. -/
theorem tickSecond_goal_step (t : Timer) (l : Int)
    (hty : t.type = TimerType.goal) (hrun : t.isRunning = true)
    (hL : t.lastTickAt = some l) (hl : l ≠ 0) (hrem : 1 < t.remainingSeconds) :
    tickSecond t = { t with remainingSeconds := t.remainingSeconds - 1,
                            lastTickAt := some (l + 1000) } := by
  have hguard : (t.isRunning && (l != 0)) = true := by simp [hrun, hl]
  have hge : l + 1000 - l ≥ (1000 : Int) := by omega
  have hsp : secondsPassedOf (l + 1000 - l) = 1 := by
    have harith : l + 1000 - l = (1000 : Int) := by ring
    rw [harith]
    decide
  simp only [tickSecond, hL, Option.getD_some, tickTimer, hguard, hty,
    ge_iff_le, hge, if_true, ite_true, hsp]
  split_ifs with hcond
  · exfalso
    omega
  · exact Timer.fields_eq _ _ rfl rfl rfl rfl rfl rfl rfl rfl rfl (by norm_num)

/-- Helper: one per-second tick of a running goal timer with at most one
second remaining is the terminal goal-reached transition. -/
theorem tickSecond_goal_term (t : Timer) (l : Int)
    (hty : t.type = TimerType.goal) (hrun : t.isRunning = true)
    (hL : t.lastTickAt = some l) (hl : l ≠ 0) (hrem : t.remainingSeconds ≤ 1) :
    tickSecond t = { t with remainingSeconds := 0, isRunning := false,
                            lastTickAt := none } := by
  have hguard : (t.isRunning && (l != 0)) = true := by simp [hrun, hl]
  have hge : l + 1000 - l ≥ (1000 : Int) := by omega
  have hsp : secondsPassedOf (l + 1000 - l) = 1 := by
    have harith : l + 1000 - l = (1000 : Int) := by ring
    rw [harith]
    decide
  simp only [tickSecond, hL, Option.getD_some, tickTimer, hguard, hty,
    ge_iff_le, hge, if_true, ite_true, hsp]
  split_ifs with hcond
  · rfl
  · exfalso
    omega

/-- Helper: closed form of N per-second ticks of a running stopwatch. -/
theorem iterate_tickSecond_stopwatch (N : Nat) (t : Timer) (l : Int)
    (hty : t.type = TimerType.stopwatch) (hrun : t.isRunning = true)
    (hL : t.lastTickAt = some l) (hl : 0 < l) :
    Nat.iterate tickSecond N t
      = { t with elapsedSeconds := t.elapsedSeconds + N,
                 lastTickAt := some (l + N * 1000) } := by
  induction N generalizing t l with
  | zero =>
    show t = _
    refine Timer.fields_eq _ _ rfl rfl rfl rfl rfl (by norm_num) rfl rfl rfl ?_
    rw [hL]
    norm_num
  | succ n ih =>
    rw [Function.iterate_succ_apply]
    rw [tickSecond_stopwatch_eq t l hty hrun hL (by omega)]
    rw [ih { t with elapsedSeconds := t.elapsedSeconds + 1, lastTickAt := some (l + 1000) } (l + 1000) hty hrun rfl (by omega)]
    refine Timer.fields_eq _ _ rfl rfl rfl rfl rfl ?_ rfl rfl rfl ?_
    · show t.elapsedSeconds + 1 + (n : Int) = t.elapsedSeconds + ((n + 1 : Nat) : Int)
      push_cast
      ring
    · show some (l + 1000 + (n : Int) * 1000) = some (l + ((n + 1 : Nat) : Int) * 1000)
      push_cast
      ring_nf

/-- Helper: closed form of N per-second ticks of a running goal timer
that has at least N seconds remaining: non-terminal unless the N-th tick
hits zero exactly, in which case the terminal transition fires. -/
theorem iterate_tickSecond_goal (N : Nat) (t : Timer) (l : Int)
    (hty : t.type = TimerType.goal) (hrun : t.isRunning = true)
    (hL : t.lastTickAt = some l) (hl : 0 < l)
    (hNR : (N : Int) ≤ t.remainingSeconds) :
    Nat.iterate tickSecond N t =
      if (N : Int) < t.remainingSeconds ∨ N = 0 then
        { t with remainingSeconds := t.remainingSeconds - N,
                 lastTickAt := some (l + N * 1000) }
      else
        { t with remainingSeconds := 0, isRunning := false,
                 lastTickAt := none } := by
  induction N generalizing t l with
  | zero =>
    rw [if_pos (Or.inr rfl)]
    show t = _
    refine Timer.fields_eq _ _ rfl rfl rfl rfl (by norm_num) rfl rfl rfl rfl ?_
    rw [hL]
    norm_num
  | succ n ih =>
    rw [Function.iterate_succ_apply]
    by_cases hterm : t.remainingSeconds ≤ 1
    · have hn0 : n = 0 := by omega
      subst hn0
      rw [tickSecond_goal_term t l hty hrun hL (by omega) hterm]
      rw [Function.iterate_zero_apply]
      have hcond : ¬ (((0 + 1 : Nat) : Int) < t.remainingSeconds ∨ 0 + 1 = 0) := by
        omega
      rw [if_neg hcond]
    · rw [tickSecond_goal_step t l hty hrun hL (by omega) (by omega)]
      rw [ih { t with remainingSeconds := t.remainingSeconds - 1, lastTickAt := some (l + 1000) } (l + 1000) hty hrun rfl (by omega) (by show ((n : Int)) ≤ t.remainingSeconds - 1; omega)]
      by_cases hlt : ((n : Int)) < t.remainingSeconds - 1
      · have hcond1 : ((n : Int)) < ({ t with remainingSeconds := t.remainingSeconds - 1, lastTickAt := some (l + 1000) } : Timer).remainingSeconds ∨ n = 0 :=
          Or.inl (by show ((n : Int)) < t.remainingSeconds - 1; exact hlt)
        rw [if_pos hcond1]
        have hcond2 : (((n + 1 : Nat) : Int)) < t.remainingSeconds ∨ n + 1 = 0 :=
          Or.inl (by omega)
        rw [if_pos hcond2]
        refine Timer.fields_eq _ _ rfl rfl rfl rfl ?_ rfl rfl rfl rfl ?_
        · show t.remainingSeconds - 1 - (n : Int)
            = t.remainingSeconds - ((n + 1 : Nat) : Int)
          push_cast
          ring
        · show some (l + 1000 + (n : Int) * 1000)
            = some (l + ((n + 1 : Nat) : Int) * 1000)
          push_cast
          ring_nf
      · have hcond1 : ¬ (((n : Int)) < ({ t with remainingSeconds := t.remainingSeconds - 1, lastTickAt := some (l + 1000) } : Timer).remainingSeconds ∨ n = 0) := by
          show ¬ (((n : Int)) < t.remainingSeconds - 1 ∨ n = 0)
          omega
        rw [if_neg hcond1]
        have hcond2 : ¬ ((((n + 1 : Nat) : Int)) < t.remainingSeconds ∨ n + 1 = 0) := by
          omega
        rw [if_neg hcond2]

/-- C3: applying the Catch-Up Reconciler once at `now = lastTickAt + N*1000`
(so `deltaMs = N*1000`) produces exactly the same timer as applying the
Tick Engine's per-second update N times in a row with `deltaMs = 1000`
each time — for Stopwatch timers unconditionally and for Goal timers
with at least N seconds remaining (no mid-sequence zero crossing; the
terminal goal-reached transition at the end, `N = remainingSeconds`, is
included). -/
theorem catchUp_equiv_iterated_ticks (t : Timer) (l : Int) (N : Nat)
    (hrun : t.isRunning = true) (hL : t.lastTickAt = some l) (hl : 0 < l)
    (hN : 0 < N)
    (hgoal : t.type = TimerType.goal → (N : Int) ≤ t.remainingSeconds) :
    catchUpTimer (l + N * 1000) t = Nat.iterate tickSecond N t := by
  have hguard : (t.isRunning && (l != 0)) = true := by
    simp only [hrun, Bool.true_and, bne_iff_ne, ne_eq]
    omega
  have hdelta : l + (N : Int) * 1000 - l = (N : Int) * 1000 := by ring
  have hpos : l + (N : Int) * 1000 - l > 0 := by
    rw [hdelta]
    positivity
  have hsp : secondsPassedOf (l + (N : Int) * 1000 - l) = N := by
    rw [hdelta]
    show (((((N : Int) * 1000).toNat) / 1000 : Nat) : Int) = (N : Int)
    have h1 : ((N : Int) * 1000).toNat = N * 1000 := by omega
    rw [h1, Nat.mul_div_cancel N (by norm_num)]
  cases htyc : t.type with
  | stopwatch =>
    rw [iterate_tickSecond_stopwatch N t l htyc hrun hL hl]
    simp only [catchUpTimer, hL, hguard, htyc, if_true, ite_true, hpos, hsp]
  | goal =>
    have hNR := hgoal htyc
    rw [iterate_tickSecond_goal N t l htyc hrun hL hl hNR]
    simp only [catchUpTimer, hL, hguard, htyc, if_true, ite_true, hpos, hsp]
    by_cases hlt : (N : Int) < t.remainingSeconds
    · have hcondp : (N : Int) < t.remainingSeconds ∨ N = 0 := Or.inl hlt
      rw [if_pos hcondp]
      have hcond : ¬ (max 0 (t.remainingSeconds - (N : Int)) ≤ 0) := by omega
      refine Timer.fields_eq _ _ rfl rfl rfl rfl ?_ rfl ?_ rfl rfl ?_
      · show max 0 (t.remainingSeconds - (N : Int)) = t.remainingSeconds - (N : Int)
        omega
      · show (!(decide (max 0 (t.remainingSeconds - (N : Int)) ≤ 0))) = t.isRunning
        rw [hrun, decide_eq_false hcond]
        rfl
      · show (if max 0 (t.remainingSeconds - (N : Int)) ≤ 0 then none
              else some (l + (N : Int) * 1000)) = some (l + (N : Int) * 1000)
        rw [if_neg hcond]
    · have hcond : max 0 (t.remainingSeconds - (N : Int)) ≤ 0 := by omega
      have hncond2 : ¬ ((N : Int) < t.remainingSeconds ∨ N = 0) := by omega
      rw [if_neg hncond2]
      refine Timer.fields_eq _ _ rfl rfl rfl rfl ?_ rfl ?_ rfl rfl ?_
      · show max 0 (t.remainingSeconds - (N : Int)) = 0
        omega
      · show (!(decide (max 0 (t.remainingSeconds - (N : Int)) ≤ 0))) = false
        rw [decide_eq_true hcond]
        rfl
      · show (if max 0 (t.remainingSeconds - (N : Int)) ≤ 0 then none
              else some (l + (N : Int) * 1000)) = (none : Option Int)
        rw [if_pos hcond]

/-- Witness for C3 at a concrete input: a running goal timer with 5
seconds remaining and `lastTickAt = 2000`, reconciled at
`now = 2000 + 2*1000`, equals the timer after 2 per-second ticks. -/
theorem catchUp_equiv_iterated_ticks_witness :
    catchUpTimer (2000 + 2 * 1000)
        { timerB with remainingSeconds := 5, lastTickAt := some 2000 }
      = Nat.iterate tickSecond 2
          { timerB with remainingSeconds := 5, lastTickAt := some 2000 } :=
  catchUp_equiv_iterated_ticks
    { timerB with remainingSeconds := 5, lastTickAt := some 2000 }
    2000 2 rfl rfl (by decide) (by decide) (fun _ => by decide)

end WeekTime
